import Mathlib

/-
Shallow embedding of the object-index core of the electron-s3-file-manager
repository, primarily src/main-process/ipc-handlers/main-api/object-handler.js.

Conventions of the embedding:
* the relational object table is a `Store`: the list of persisted rows plus the
  next auto-increment id; queries (`findOne`, `findAll`) are list traversals in
  row order;
* SQL LIKE patterns built by `utils.generateLikeSyntax` are kept structurally
  (anchor, escaped fragment, anchor) and matched literally, which is the net
  semantics of escaping `% _ \` before interpolation;
* the S3 adapter is a black box: remote calls an operation issues are recorded
  in order in a `RemoteOp` list, and fallible remote calls (`upload`,
  `headObject`, the post-upload row update) take their outcome as an explicit
  `Except` argument;
* JS strings are Lean `String`s; comparisons (`Op.gt` on TEXT columns under the
  default binary collation) are code-point lexicographic order, which for the
  ASCII paths involved coincides with SQLite memcmp order;
* progress channels (`$event`, `onProgressChannel`) are fire-and-forget side
  channels with no effect on outcomes and are elided, as are the `toJSON`
  serialisation, `storageClass` column and the ContentType guess passed to
  `upload`, none of which the verified properties mention.
-/

deriving instance DecidableEq for Except

namespace S3FM

/-! ## Character-list string primitives

Executable primitives used both by the embedded code and by the spec-side
predicates, defined on `List Char` so that concrete runs reduce in the kernel. -/

/-- Does the list `s` start with the list `pat`? -/
def startsWithL : List Char → List Char → Bool
  | _, [] => true
  | [], _ :: _ => false
  | c :: cs, d :: ds => c = d && startsWithL cs ds

/-- Does `pat` occur as a contiguous run somewhere inside `s`? -/
def hasSubL (pat : List Char) : List Char → Bool
  | [] => startsWithL [] pat
  | c :: cs => startsWithL (c :: cs) pat || hasSubL pat cs

/-- JS `String.prototype.replace` with a string pattern and empty replacement:
remove the first (leftmost) occurrence of `pat`; if `pat` does not occur the
string is unchanged.  An empty `pat` matches at position 0, as in JS. -/
def replaceFirstL (pat : List Char) : List Char → List Char
  | [] => []
  | c :: cs => if startsWithL (c :: cs) pat then (c :: cs).drop pat.length else c :: replaceFirstL pat cs

/-- JS `String.prototype.split` on a single separator character:
`"" ↦ [""]`, separators delimit possibly-empty fields. -/
def splitOnCharL (sep : Char) : List Char → List (List Char)
  | [] => [[]]
  | c :: cs =>
    if c = sep then [] :: splitOnCharL sep cs
    else
      match splitOnCharL sep cs with
      | [] => [[c]]
      | h :: t => (c :: h) :: t

/-- Strict lexicographic order on character lists, by code point — the
SQLite binary (memcmp) collation under which the TEXT columns compare, which
coincides with bytewise order on the ASCII paths involved. -/
def ltCharsL : List Char → List Char → Bool
  | [], [] => false
  | [], _ :: _ => true
  | _ :: _, [] => false
  | c :: cs, d :: ds => if c = d then ltCharsL cs ds else decide (c < d)

/-- String wrapper for `ltCharsL`: `a` sorts strictly before `b`. -/
def strLt (a b : String) : Bool := ltCharsL a.data b.data

/-- String wrapper for `startsWithL`: `s` starts with `pre`. -/
def strStarts (s pre : String) : Bool := startsWithL s.data pre.data

/-- String wrapper for `hasSubL`: `sub` occurs somewhere inside `s`. -/
def strHasSub (s sub : String) : Bool := hasSubL sub.data s.data

/-- String wrapper for `replaceFirstL`: JS `s.replace(pat, '')`. -/
def jsReplaceFirst (s pat : String) : String := ⟨replaceFirstL pat.data s.data⟩

/-- String wrapper for `splitOnCharL`: JS `s.split(sep)`. -/
def jsSplit (s : String) (sep : Char) : List String :=
  (splitOnCharL sep s.data).map fun l => ⟨l⟩

/-- Node `path.join(root, ...segs)` restricted to the shapes the handler
produces: empty segments vanish and the rest are joined with `/`
(`.`/`..` normalisation never arises for the virtual paths involved). -/
def pathJoin (root : String) (segs : List String) : String :=
  String.intercalate "/" ((root :: segs).filter fun s => s ≠ "")

/-! ## Path/keyword utility

`src/main-process/common/utils.js` is not under `src/`; these definitions are
modelled from the spec (§4.1, §3). -/

/-- Modelled from the spec: `likePattern`/`generateLikeSyntax` from the missing
`common/utils.js` builds `start ++ escapedFragment ++ "%"`; the fragment is
escaped so it matches literally.  §4.4(4), §3 and the glossary fix the two
shapes in use: the explicit `start = ''` call sites are exact-prefix matches
and the default `start = '%'` is an unanchored substring search. -/
structure LikePat where
  start : String
  frag : String
  stop : String
deriving DecidableEq, Repr

/-- Modelled from the spec: pattern builder; `start` is passed positionally,
the trailing anchor is always `%`. -/
def genLike (start value : String) : LikePat := ⟨start, value, "%"⟩

/-- SQL LIKE matching for the two pattern shapes `generateLikeSyntax` produces:
`%frag%` is substring containment, `frag%` is an exact-prefix match. -/
def likeMatches (pat : LikePat) (s : String) : Bool :=
  if pat.start = "%" then hasSubL pat.frag.data s.data
  else startsWithL s.data pat.frag.data

/-- Modelled from the spec (§4.1): `parseKeyword` from the missing
`common/utils.js` splits free text on blanks into required (`plus`) terms and
excluded (`minus`) terms, a leading `-` marking (and being stripped from) a
minus term. -/
def parseKeyword (text : String) : List String × List String :=
  let terms := (jsSplit text ' ').filter fun t => t ≠ ""
  (terms.filter fun t => !(strStarts t "-"),
   (terms.filter fun t => strStarts t "-").map fun t => ⟨t.data.drop 1⟩)

/-- Modelled from the spec (§3): `path` with a trailing `/` (a folder marker)
stripped, the common core of the derived `dirname`/`basename` columns of the
object model (`models/data/object-model.js`, not under `src/`). -/
def stripSlashEnd (p : String) : String :=
  match p.data.getLast? with
  | some c => if c = '/' then ⟨p.data.dropLast⟩ else p
  | none => p

/-- Modelled from the spec (§3): derived `dirname` column — the parent
directory portion of `path`, without trailing slash; empty for root level. -/
def pathDirname (p : String) : String :=
  String.intercalate "/" (jsSplit (stripSlashEnd p) '/').dropLast

/-- Modelled from the spec (§3): derived `basename` column — the final path
segment, with a folder's trailing slash stripped. -/
def pathBasename (p : String) : String :=
  (jsSplit (stripSlashEnd p) '/').getLastD ""

/-- Node `path.basename(localPath)` (platform separator modelled as `/`). -/
def basenameOfLocal (localPath : String) : String :=
  (jsSplit localPath '/').getLastD ""

/-! ## Data model -/

/-- Modelled from the spec: `shared/constants/object-type.js` is not under
`src/`; §3/§9 leave the two ordinals open, we fix `FOLDER = 0 < FILE = 1`. -/
def FOLDER_TYPE : Nat := 0

/-- Modelled from the spec: the `FILE` ordinal of `OBJECT_TYPE`. -/
def FILE_TYPE : Nat := 1

/-- Modelled from the spec: `shared/constants/frontend-operation-code.js` is
not under `src/`; the only code the handler uses is the duplicate alert. -/
inductive FrontendOperationCode where
  | showObjectDuplicatedAlert
deriving DecidableEq, Repr

/-- A persisted object row (`models/data/object-model.js`).  `dirname` and
`basename` are derived from `path` at construction (spec §3). -/
structure Rec where
  id : Nat
  type : Nat
  path : String
  dirname : String
  basename : String
  size : Option Nat := none
  lastModified : Option Nat := none
deriving DecidableEq, Repr

/-- Build a row from its `type` and `path`, deriving `dirname`/`basename`. -/
def mkRec (id type : Nat) (path : String) : Rec :=
  { id := id, type := type, path := path,
    dirname := pathDirname path, basename := pathBasename path }

/-- The object index table: rows in insertion order plus the auto-increment
counter. -/
structure Store where
  recs : List Rec
  nextId : Nat
deriving DecidableEq, Repr

/-- The typed failures of `shared/errors` the handler raises; remote-adapter
failures are opaque `remote` payloads. -/
inductive Err where
  | notFound (msg : String)
  | conflict (code : FrontendOperationCode) (value : String)
  | remote (n : Nat)
deriving DecidableEq, Repr

/-- A remote S3 adapter call issued by the handler, in issue order. -/
inductive RemoteOp where
  | putObject (path : String)
  | upload (path : String)
  | headObject (path : String)
  | deleteObjects (paths : List String)
  | getObject (path : String)
deriving DecidableEq, Repr

/-- Outcome of a handler operation: its result, the index afterwards, and the
remote calls it issued. -/
structure OpOut (α : Type) where
  result : Except Err α
  db : Store
  ops : List RemoteOp

/-- Embeds `ObjectModel.save()` on a fresh row: fails (returning `none`, which the
handler translates to a `ConflictError`) exactly when `path` collides with an
existing row's unique `path`; otherwise appends the row with the next id. -/
def insertRec (db : Store) (type : Nat) (path : String) : Option (Store × Rec) :=
  if db.recs.any fun x => x.path = path then none
  else
    let r := mkRec db.nextId type path
    some ({ recs := db.recs ++ [r], nextId := db.nextId + 1 }, r)

/-- Embeds `object.destroy()`: delete the row with the given primary key. -/
def destroyId (db : Store) (id : Nat) : Store :=
  { db with recs := db.recs.filter fun r => !(r.id == id) }

/-- Embeds `ObjectModel.destroy({where: {id: {[Op.in]: ids}}})`. -/
def destroyIds (db : Store) (ids : List Nat) : Store :=
  { db with recs := db.recs.filter fun r => !(ids.contains r.id) }

/-- Embeds `object.save()` on an already-persisted row: overwrite the row with the
same primary key. -/
def updateRec (db : Store) (r : Rec) : Store :=
  { db with recs := db.recs.map fun x => if x.id == r.id then r else x }

/-- Does the index hold a FOLDER row with exactly this path (the parent check
`findOne({where: {type: FOLDER, path: dirname + '/'}})`)? -/
def hasFolder (db : Store) (dirname : String) : Bool :=
  db.recs.any fun x => x.type == FOLDER_TYPE && x.path == dirname ++ "/"

/-! ## getObjects (object-handler.js) -/

/-- The `plus`/`minus` keyword terms the handler derives: JS `if (keyword)` is
false for an absent or empty keyword, otherwise `utils.parseKeyword` runs. -/
def kwTerms (keyword : Option String) : List String × List String :=
  match keyword with
  | none => ([], [])
  | some k => if k = "" then ([], []) else parseKeyword k

/-- The conjunction of the `keywordConditions` array: every `plus` term as an
`Op.like` on `path`, every `minus` term as an `Op.notLike` on `path`. -/
def kwCond (plus minus : List String) (r : Rec) : Bool :=
  (plus.all fun t => likeMatches (genLike "%" t) r.path)
    && (minus.all fun t => !(likeMatches (genLike "%" t) r.path))

/-- The `dirname` part of the `where` clause: prefix `Op.like` when any
keyword condition is present, exact equality otherwise. -/
def dirCond (dirname : String) (kwActive : Bool) (r : Rec) : Bool :=
  if kwActive then likeMatches (genLike "" dirname) r.dirname
  else r.dirname == dirname

/-- The disjunction of the two `afterConditions` the code pushes, verbatim:
`(type ≥ cursor.type ∧ basename > cursor.basename) ∨ (type ≥ cursor.type ∧
basename = cursor.basename ∧ id > cursor.id)` — note `Op.gte`, not `Op.gt`,
on `type` in both disjuncts. -/
def afterCond (c : Rec) (r : Rec) : Bool :=
  (decide (c.type ≤ r.type) && strLt c.basename r.basename)
    || (decide (c.type ≤ r.type) && r.basename == c.basename && decide (c.id < r.id))

/-- The full `where` clause of the `findAll` in `getObjects`, as a row
predicate; `c` is the resolved cursor row, if an `after` id was given. -/
def queryFilterPred (dirname : String) (keyword : Option String)
    (c : Option Rec) (r : Rec) : Bool :=
  let t := kwTerms keyword
  let kwActive := !(t.1.isEmpty && t.2.isEmpty)
  dirCond dirname kwActive r
    && (match c with | none => true | some cur => afterCond cur r)
    && kwCond t.1 t.2 r

/-- The rows admitted by the `where` clause, in table order. -/
def eligibleRecs (db : Store) (dirname : String) (keyword : Option String)
    (c : Option Rec) : List Rec :=
  db.recs.filter (queryFilterPred dirname keyword c)

/-- The `ORDER BY type ASC, basename ASC, id ASC` ordering. -/
def recOrd (a b : Rec) : Prop :=
  a.type < b.type
    ∨ (a.type = b.type
        ∧ (strLt a.basename b.basename = true
            ∨ (a.basename = b.basename ∧ a.id ≤ b.id)))

instance : DecidableRel recOrd := fun a b => by unfold recOrd; infer_instance

/-- The admitted rows under the query's `ORDER BY`, before the `LIMIT`. -/
def orderedMatches (db : Store) (dirname : String) (keyword : Option String)
    (c : Option Rec) : List Rec :=
  List.insertionSort recOrd (eligibleRecs db dirname keyword c)

/-- The rows the `findAll` actually fetches: ordered matches truncated to
`limit + 1`. -/
def fetchRows (db : Store) (dirname : String) (keyword : Option String)
    (c : Option Rec) (limit : Nat) : List Rec :=
  (orderedMatches db dirname keyword c).take (limit + 1)

/-- The page `getObjects` returns. -/
structure Page where
  hasNextPage : Bool
  items : List Rec
deriving DecidableEq, Repr

/-- Embeds `exports.getObjects({dirname, keyword, after, limit})`: resolve the
`after` cursor (NotFoundError if absent), fetch `limit + 1` ordered rows under
the combined `where` clause, return the first `limit` with
`hasNextPage = (fetched > limit)`.  JS `if (after)` is modelled by the
`Option`. -/
def getObjects (db : Store) (dirname : String) (keyword : Option String)
    (after : Option Nat) (limit : Nat) : Except Err Page :=
  match after with
  | some a =>
    match db.recs.find? (fun r => r.id == a) with
    | none => .error (.notFound ("not found object " ++ toString a))
    | some cur =>
      let rows := fetchRows db dirname keyword (some cur) limit
      .ok ⟨decide (limit < rows.length), rows.take limit⟩
  | none =>
    let rows := fetchRows db dirname keyword none limit
    .ok ⟨decide (limit < rows.length), rows.take limit⟩

/-! ## createFolder / createFile (object-handler.js) -/

/-- The candidate folder path `` `${dirname}/${basename}/` ``, or
`` `${basename}/` `` when `dirname` is falsy (empty). -/
def mkFolderPath (dirname basename : String) : String :=
  if dirname = "" then basename ++ "/" else dirname ++ "/" ++ basename ++ "/"

/-- The candidate file path `` `${dirname}/${basename}` ``, or plain
`basename` when `dirname` is falsy (empty). -/
def mkFilePath (dirname basename : String) : String :=
  if dirname = "" then basename else dirname ++ "/" ++ basename

/-- Embeds `exports.createFolder({dirname, basename})`: parent-folder check on the
derived `object.dirname` (NotFoundError), local insert (unique-path collision
becomes a ConflictError carrying the duplicate-alert operation code and the
colliding path, with no remote call), and only then the remote `putObject`
folder marker. -/
def createFolder (db : Store) (dirname basename : String) : OpOut Rec :=
  let path := mkFolderPath dirname basename
  let dn := pathDirname path
  if dn ≠ "" && !(hasFolder db dn) then
    ⟨.error (.notFound ("not found parent \"" ++ dn ++ "\"")), db, []⟩
  else
    match insertRec db FOLDER_TYPE path with
    | none =>
      ⟨.error (.conflict .showObjectDuplicatedAlert path), db, []⟩
    | some (db2, r) =>
      ⟨.ok r, db2, [.putObject path]⟩

/-- Embeds `exports.createFile({localPath, dirname, ...})`: derive the basename from
the local source path, parent check, provisional insert (collision → same
ConflictError, no upload), then `upload`, `headObject` and the size /
lastModified update, whose outcomes are the three `Except` arguments; any of
the three failing destroys the provisional row and re-throws that error. -/
def createFile (db : Store) (localPath dirname : String)
    (uploadR : Except Err Unit) (headR : Except Err (Nat × Nat))
    (updateR : Except Err Unit) : OpOut Rec :=
  let basename := basenameOfLocal localPath
  let path := mkFilePath dirname basename
  let dn := pathDirname path
  if dn ≠ "" && !(hasFolder db dn) then
    ⟨.error (.notFound ("not found parent \"" ++ dn ++ "\"")), db, []⟩
  else
    match insertRec db FILE_TYPE path with
    | none =>
      ⟨.error (.conflict .showObjectDuplicatedAlert path), db, []⟩
    | some (db2, r) =>
      match uploadR with
      | .error e => ⟨.error e, destroyId db2 r.id, [.upload path]⟩
      | .ok _ =>
        match headR with
        | .error e => ⟨.error e, destroyId db2 r.id, [.upload path, .headObject path]⟩
        | .ok hd =>
          match updateR with
          | .error e => ⟨.error e, destroyId db2 r.id, [.upload path, .headObject path]⟩
          | .ok _ =>
            let r2 := { r with size := some hd.1, lastModified := some hd.2 }
            ⟨.ok r2, updateRec db2 r2, [.upload path, .headObject path]⟩

/-! ## deleteObjects / downloadObjects (object-handler.js) -/

/-- The descendant query's `path` condition: `Op.like` against
`generateLikeSyntax(folderPath, {start: ''})`, i.e. prefix match. -/
def descMatch (folderPath : String) (r : Rec) : Bool :=
  likeMatches (genLike "" folderPath) r.path

/-- Embeds the `ids.forEach` validation: the first requested id with no matched row. -/
def firstMissingOf (objects : List Rec) (ids : List Nat) : Option Nat :=
  ids.find? fun i => !(objects.any fun r => r.id == i)

/-- The serialized (`pLimit(1)`) expansion loop of `deleteObjects`: direct
FILE inputs are pushed onto `files`; each FOLDER input pushes every FILE row
and every FOLDER row whose path the folder's path prefixes (the folder itself
included) onto `files`/`folders` respectively. -/
def deleteCollect (recs : List Rec) (objects : List Rec) : List Rec × List Rec :=
  objects.foldl
    (fun acc o =>
      if o.type == FILE_TYPE then (acc.1 ++ [o], acc.2)
      else
        (acc.1 ++ recs.filter (fun r => r.type == FILE_TYPE && descMatch o.path r),
         acc.2 ++ recs.filter (fun r => r.type == FOLDER_TYPE && descMatch o.path r)))
    ([], [])

/-- Embeds `paths.sort((a, b) => b.split('/').length - a.split('/').length)`:
the comparator key. -/
def slashCount (p : String) : Nat := (jsSplit p '/').length

/-- The stable descending-by-slash-count sort the comparator induces
(V8 `Array.prototype.sort` is stable, as is insertion sort). -/
def sortByDepthDesc (ps : List String) : List String :=
  List.insertionSort (fun a b => slashCount b ≤ slashCount a) ps

/-- Embeds `exports.deleteObjects({ids})`: fetch the rows `Op.in ids`; if some
requested id matches no row, NotFoundError naming the first such id before
any mutation (a pure length mismatch from duplicated-but-existing ids falls
through); expand folders; then remote-delete and destroy the collected files,
then the collected folders with the remote folder batch sorted deepest
first. -/
def deleteObjects (db : Store) (ids : List Nat) : OpOut Unit :=
  let objects := db.recs.filter fun r => ids.contains r.id
  match (if objects.length == ids.length then none else firstMissingOf objects ids) with
  | some m => ⟨.error (.notFound ("not found \"" ++ toString m ++ "\"")), db, []⟩
  | none =>
    let collected := deleteCollect db.recs objects
    let files := collected.1
    let folders := collected.2
    let db2 := if files.isEmpty then db else destroyIds db (files.map fun f => f.id)
    let fileOps : List RemoteOp :=
      if files.isEmpty then [] else [.deleteObjects (files.map fun f => f.path)]
    let db3 := if folders.isEmpty then db2 else destroyIds db2 (folders.map fun f => f.id)
    let folderOps : List RemoteOp :=
      if folders.isEmpty then []
      else [.deleteObjects (sortByDepthDesc (folders.map fun f => f.path))]
    ⟨.ok (), db3, fileOps ++ folderOps⟩

/-- A local write `downloadObjects` performs: the source virtual path and the
destination `path.join(localPath, ...file.path.replace(dirname, '').split(sep))`. -/
structure FileWrite where
  src : String
  dest : String
deriving DecidableEq, Repr

/-- The destination-path mapping of `downloadObjects`. -/
def destPath (localPath dirname filePath : String) : String :=
  pathJoin localPath (jsSplit (jsReplaceFirst filePath dirname) '/')

/-- The serialized expansion loop of `downloadObjects`: direct FILE inputs,
plus every FILE row under each FOLDER input's path. -/
def downloadCollect (recs : List Rec) (objects : List Rec) : List Rec :=
  objects.foldl
    (fun acc o =>
      if o.type == FILE_TYPE then acc ++ [o]
      else acc ++ recs.filter fun r => r.type == FILE_TYPE && descMatch o.path r)
    []

/-- Embeds `exports.downloadObjects({localPath, dirname, ids, ...})`: fetch the rows
`Op.in ids`; on any length mismatch, NotFoundError — naming the first missing
id, or (unlike `deleteObjects`) an unconditional NotFoundError naming the ids
list even when every id exists; then expand folders to files and stream each
file to its mapped destination.  Streaming is modelled by the returned write
list; no write happens on the error paths. -/
def downloadObjects (db : Store) (localPath dirname : String) (ids : List Nat) :
    Except Err (List FileWrite) :=
  let objects := db.recs.filter fun r => ids.contains r.id
  if objects.length == ids.length then
    let files := downloadCollect db.recs objects
    .ok (files.map fun f => ⟨f.path, destPath localPath dirname f.path⟩)
  else
    match firstMissingOf objects ids with
    | some m => .error (.notFound ("not found object \"" ++ toString m ++ "\""))
    | none => .error (.notFound ("not found \"" ++ toString ids ++ "\""))

/-! ## Spec-side definitions (for refinement comparison only) -/

/-- The resume-after predicate exactly as the spec states it (§4.4(2)):
`(type > cursor.type) ∨ (type = cursor.type ∧ basename > cursor.basename) ∨
(type = cursor.type ∧ basename = cursor.basename ∧ id > cursor.id)`.
Compare with `afterCond`, the condition the code actually builds. -/
def specResumeAfter (c : Rec) (r : Rec) : Bool :=
  decide (c.type < r.type)
    || (r.type == c.type && strLt c.basename r.basename)
    || (r.type == c.type && r.basename == c.basename && decide (c.id < r.id))

/-! ## Concrete stores used by counterexamples and witnesses -/

/-- A root listing with one folder and one file whose basename sorts before
the folder's: the configuration on which cursor pagination drops a row. -/
def exDb1 : Store := ⟨[mkRec 1 FOLDER_TYPE "b/", mkRec 2 FILE_TYPE "a.txt"], 3⟩

/-- A store with a single root file whose path contains, but does not start
with, the letter `b`. -/
def exDb7 : Store := ⟨[mkRec 1 FILE_TYPE "ab.txt"], 2⟩

/-- A store with a folder containing a file, plus an unrelated root file. -/
def exDb5 : Store :=
  ⟨[mkRec 1 FOLDER_TYPE "a/", mkRec 2 FILE_TYPE "a/x.txt",
    mkRec 3 FOLDER_TYPE "a/b/", mkRec 4 FILE_TYPE "c.txt"], 5⟩

/-- A store with one folder and one existing folder/file pair for the
collision witnesses. -/
def exDb2 : Store := ⟨[mkRec 1 FOLDER_TYPE "x/", mkRec 2 FILE_TYPE "y.txt"], 3⟩

/-- A store with a single root file, for the duplicate-ids witness. -/
def exDb10 : Store := ⟨[mkRec 1 FILE_TYPE "f.txt"], 2⟩

/-- A store with a folder `docs/` holding one file, for the download
destination witness. -/
def exDb9 : Store := ⟨[mkRec 1 FOLDER_TYPE "docs/", mkRec 2 FILE_TYPE "docs/a.txt"], 3⟩

/-! ## Characterisation helpers -/

/-- Concatenation of `f` over a list, used to characterise the accumulating
expansion folds. -/
def concatAll (f : α → List β) : List α → List β
  | [] => []
  | x :: xs => f x ++ concatAll f xs

/-- What one input contributes to the collected `files`: itself if it is a
FILE, otherwise every FILE row its path prefixes. -/
def filesOf (recs : List Rec) (o : Rec) : List Rec :=
  if o.type == FILE_TYPE then [o]
  else recs.filter fun r => r.type == FILE_TYPE && descMatch o.path r

/-- What one input contributes to the collected `folders`: nothing if it is a
FILE, otherwise every FOLDER row its path prefixes (itself included). -/
def foldersOf (recs : List Rec) (o : Rec) : List Rec :=
  if o.type == FILE_TYPE then []
  else recs.filter fun r => r.type == FOLDER_TYPE && descMatch o.path r

/-- The destination path as the spec words it: the local destination root
joined with the virtual path with the `dirname` prefix stripped. -/
def specDest (localPath dirname filePath : String) : String :=
  pathJoin localPath (jsSplit ⟨filePath.data.drop dirname.length⟩ '/')

/-- The rows `deleteObjects ids` collects into `files`, in collection order. -/
def delFiles (db : Store) (ids : List Nat) : List Rec :=
  concatAll (filesOf db.recs) (db.recs.filter fun r => ids.contains r.id)

/-- The rows `deleteObjects ids` collects into `folders`, in collection
order. -/
def delFolders (db : Store) (ids : List Nat) : List Rec :=
  concatAll (foldersOf db.recs) (db.recs.filter fun r => ids.contains r.id)

/-! ## Helper lemmas -/

theorem mem_concatAll {f : α → List β} {b : β} :
    ∀ {l : List α}, b ∈ concatAll f l ↔ ∃ a ∈ l, b ∈ f a
  | [] => by simp [concatAll]
  | x :: xs => by
    simp [concatAll, mem_concatAll (l := xs)]

theorem deleteCollect_go (recs : List Rec) :
    ∀ (objects : List Rec) (acc : List Rec × List Rec),
      objects.foldl
        (fun acc o =>
          if o.type == FILE_TYPE then (acc.1 ++ [o], acc.2)
          else
            (acc.1 ++ recs.filter (fun r => r.type == FILE_TYPE && descMatch o.path r),
             acc.2 ++ recs.filter (fun r => r.type == FOLDER_TYPE && descMatch o.path r)))
        acc
      = (acc.1 ++ concatAll (filesOf recs) objects,
         acc.2 ++ concatAll (foldersOf recs) objects)
  | [], acc => by simp [concatAll]
  | o :: os, acc => by
    rw [List.foldl_cons, deleteCollect_go recs os]
    by_cases h : (o.type == FILE_TYPE) = true
    · simp [h, concatAll, filesOf, foldersOf, List.append_assoc]
    · rw [Bool.not_eq_true] at h
      simp [h, concatAll, filesOf, foldersOf, List.append_assoc]

/-- The delete expansion loop collects, in input order, each FILE input and
the prefix-descendants of each FOLDER input. -/
theorem deleteCollect_eq (recs objects : List Rec) :
    deleteCollect recs objects
      = (concatAll (filesOf recs) objects, concatAll (foldersOf recs) objects) := by
  simpa [deleteCollect] using deleteCollect_go recs objects ([], [])

theorem downloadCollect_go (recs : List Rec) :
    ∀ (objects : List Rec) (acc : List Rec),
      objects.foldl
        (fun acc o =>
          if o.type == FILE_TYPE then acc ++ [o]
          else acc ++ recs.filter fun r => r.type == FILE_TYPE && descMatch o.path r)
        acc
      = acc ++ concatAll (filesOf recs) objects
  | [], acc => by simp [concatAll]
  | o :: os, acc => by
    rw [List.foldl_cons, downloadCollect_go recs os]
    by_cases h : (o.type == FILE_TYPE) = true
    · simp [h, concatAll, filesOf, List.append_assoc]
    · rw [Bool.not_eq_true] at h
      simp [h, concatAll, filesOf, List.append_assoc]

/-- The download expansion loop collects, in input order, each FILE input and
the FILE prefix-descendants of each FOLDER input. -/
theorem downloadCollect_eq (recs objects : List Rec) :
    downloadCollect recs objects = concatAll (filesOf recs) objects := by
  simpa [downloadCollect] using downloadCollect_go recs objects []

/-- The descendant condition is literally a prefix test on `path`. -/
theorem descMatch_eq (fp : String) (r : Rec) :
    descMatch fp r = strStarts r.path fp := rfl

/-- The depth-descending sort permutes the folder paths. -/
theorem sortByDepthDesc_perm (ps : List String) :
    List.Perm (sortByDepthDesc ps) ps :=
  List.perm_insertionSort _ ps

/-- The depth-descending sort yields a list pairwise ordered by descending
slash count. -/
theorem sortByDepthDesc_sorted (ps : List String) :
    (sortByDepthDesc ps).Pairwise fun a b => slashCount b ≤ slashCount a := by
  haveI : IsTotal String fun a b => slashCount b ≤ slashCount a :=
    ⟨fun a b => (Nat.le_total (slashCount b) (slashCount a))⟩
  haveI : IsTrans String fun a b => slashCount b ≤ slashCount a :=
    ⟨fun _ _ _ hab hbc => Nat.le_trans hbc hab⟩
  exact List.sorted_insertionSort _ ps

/-- Removing the first occurrence of a string that the subject starts with is
exactly dropping its length. -/
theorem replaceFirstL_of_starts {s pre : List Char}
    (h : startsWithL s pre = true) :
    replaceFirstL pre s = s.drop pre.length := by
  cases s with
  | nil =>
    cases pre with
    | nil => rfl
    | cons d ds => simp [startsWithL] at h
  | cons c cs => simp [replaceFirstL, h]

/-- An unanchored (`%t%`) LIKE pattern is substring containment. -/
theorem likeMatches_contains (t s : String) :
    likeMatches (genLike "%" t) s = strHasSub s t := rfl

/-- An anchored (`t%`) LIKE pattern is an exact-prefix test. -/
theorem likeMatches_starts (t s : String) :
    likeMatches (genLike "" t) s = strStarts s t := rfl


/-- When every requested id matches some row, the forEach check throws
nothing. -/
theorem firstMissingOf_eq_none (db : Store) (ids : List Nat)
    (hall : ∀ i ∈ ids, ∃ r ∈ db.recs, r.id = i) :
    firstMissingOf (db.recs.filter fun r => ids.contains r.id) ids = none := by
  rw [firstMissingOf, List.find?_eq_none]
  intro i hi
  obtain ⟨r, hr, hid⟩ := hall i hi
  have hmemids : r.id ∈ ids := by rw [hid]; exact hi
  have hmem : r ∈ db.recs.filter fun r => ids.contains r.id := by
    simp only [List.mem_filter]
    exact ⟨hr, by simpa using List.elem_iff.mpr hmemids⟩
  have hany : ((db.recs.filter fun r => ids.contains r.id).any fun r => r.id == i) = true := by
    rw [List.any_eq_true]
    exact ⟨r, hmem, by simp [hid]⟩
  rw [hany]
  simp

theorem deleteObjects_run (db : Store) (ids : List Nat)
    (hv : (if (db.recs.filter fun r => ids.contains r.id).length == ids.length
            then none
            else firstMissingOf (db.recs.filter fun r => ids.contains r.id) ids) = none) :
    deleteObjects db ids =
      ⟨.ok (),
       ⟨(db.recs.filter fun r =>
           !(((delFiles db ids).map Rec.id).contains r.id)
             && !(((delFolders db ids).map Rec.id).contains r.id)), db.nextId⟩,
       (if (delFiles db ids).isEmpty then []
        else [.deleteObjects ((delFiles db ids).map Rec.path)])
         ++ (if (delFolders db ids).isEmpty then []
             else [.deleteObjects (sortByDepthDesc ((delFolders db ids).map Rec.path))])⟩ := by
  rw [deleteObjects, hv]
  rw [deleteCollect_eq]
  simp only [delFiles, delFolders]
  by_cases hf : (concatAll (filesOf db.recs) (db.recs.filter fun r => ids.contains r.id)).isEmpty
    <;> by_cases hg : (concatAll (foldersOf db.recs) (db.recs.filter fun r => ids.contains r.id)).isEmpty
    <;> simp_all [destroyIds, List.filter_filter, List.isEmpty_iff, Bool.and_comm]

theorem fetch_facts (db : Store) (dirname : String) (keyword : Option String)
    (c : Option Rec) (limit : Nat) :
    (fetchRows db dirname keyword c limit).length ≤ limit + 1
    ∧ (fetchRows db dirname keyword c limit).take limit
        = (orderedMatches db dirname keyword c).take limit
    ∧ (limit < (fetchRows db dirname keyword c limit).length
        ↔ limit < (orderedMatches db dirname keyword c).length) := by
  refine ⟨?_, ?_, ?_⟩
  · rw [fetchRows, List.length_take]
    exact min_le_left _ _
  · rw [fetchRows, List.take_take]
    congr 1
    omega
  · rw [fetchRows, List.length_take]
    omega

theorem C8_limit_plus_one_pagination (db : Store) (dirname : String)
    (keyword : Option String) (after : Option Nat) (limit : Nat) (page : Page)
    (h : getObjects db dirname keyword after limit = .ok page) :
    ∃ c : Option Rec,
      (fetchRows db dirname keyword c limit).length ≤ limit + 1
      ∧ page.items = (fetchRows db dirname keyword c limit).take limit
      ∧ (page.hasNextPage = true ↔ limit < (fetchRows db dirname keyword c limit).length)
      ∧ page.items = (orderedMatches db dirname keyword c).take limit
      ∧ (page.hasNextPage = true ↔ limit < (orderedMatches db dirname keyword c).length) := by
  cases after with
  | none =>
    simp only [getObjects] at h
    injection h with h
    subst h
    refine ⟨none, (fetch_facts db dirname keyword none limit).1, rfl, by simp, ?_, ?_⟩
    · exact (fetch_facts db dirname keyword none limit).2.1
    · simp [(fetch_facts db dirname keyword none limit).2.2]
  | some a =>
    simp only [getObjects] at h
    rcases hf : db.recs.find? fun r => r.id == a with _ | cur
    · rw [hf] at h
      simp at h
    · rw [hf] at h
      injection h with h
      subst h
      refine ⟨some cur, (fetch_facts db dirname keyword (some cur) limit).1, rfl, by simp, ?_, ?_⟩
      · exact (fetch_facts db dirname keyword (some cur) limit).2.1
      · simp [(fetch_facts db dirname keyword (some cur) limit).2.2]

theorem createFolder_conflict (db : Store) (dirname basename : String)
    (hcol : ∃ r ∈ db.recs, r.path = mkFolderPath dirname basename)
    (hpar : pathDirname (mkFolderPath dirname basename) = ""
      ∨ hasFolder db (pathDirname (mkFolderPath dirname basename)) = true) :
    createFolder db dirname basename =
      ⟨.error (.conflict .showObjectDuplicatedAlert (mkFolderPath dirname basename)), db, []⟩ := by
  have hany : (db.recs.any fun x => x.path = mkFolderPath dirname basename) = true := by
    rw [List.any_eq_true]
    obtain ⟨r, hr, he⟩ := hcol
    exact ⟨r, hr, by simp [he]⟩
  rcases hpar with h | h
  · simp [createFolder, h, insertRec, hany]
  · simp [createFolder, h, insertRec, hany]

theorem createFile_conflict (db : Store) (localPath dirname : String)
    (uploadR : Except Err Unit) (headR : Except Err (Nat × Nat)) (updateR : Except Err Unit)
    (hcol : ∃ r ∈ db.recs, r.path = mkFilePath dirname (basenameOfLocal localPath))
    (hpar : pathDirname (mkFilePath dirname (basenameOfLocal localPath)) = ""
      ∨ hasFolder db (pathDirname (mkFilePath dirname (basenameOfLocal localPath))) = true) :
    createFile db localPath dirname uploadR headR updateR =
      ⟨.error (.conflict .showObjectDuplicatedAlert (mkFilePath dirname (basenameOfLocal localPath))),
       db, []⟩ := by
  have hany : (db.recs.any fun x => x.path = mkFilePath dirname (basenameOfLocal localPath)) = true := by
    rw [List.any_eq_true]
    obtain ⟨r, hr, he⟩ := hcol
    exact ⟨r, hr, by simp [he]⟩
  rcases hpar with h | h
  · simp [createFile, h, insertRec, hany]
  · simp [createFile, h, insertRec, hany]

theorem createFolder_ok (db : Store) (dirname basename : String)
    (hno : ∀ r ∈ db.recs, r.path ≠ mkFolderPath dirname basename)
    (hpar : pathDirname (mkFolderPath dirname basename) = ""
      ∨ hasFolder db (pathDirname (mkFolderPath dirname basename)) = true) :
    createFolder db dirname basename =
      ⟨.ok (mkRec db.nextId FOLDER_TYPE (mkFolderPath dirname basename)),
       ⟨db.recs ++ [mkRec db.nextId FOLDER_TYPE (mkFolderPath dirname basename)], db.nextId + 1⟩,
       [.putObject (mkFolderPath dirname basename)]⟩ := by
  have hany : (db.recs.any fun x => x.path = mkFolderPath dirname basename) = false := by
    rw [List.any_eq_false]
    intro r hr
    simp [hno r hr]
  rcases hpar with h | h
  · simp [createFolder, h, insertRec, hany]
  · simp [createFolder, h, insertRec, hany]

theorem C2_duplicate_path_conflict (db : Store) (dirname basename localPath dn2 : String)
    (uploadR : Except Err Unit) (headR : Except Err (Nat × Nat)) (updateR : Except Err Unit) :
    ((∃ r ∈ db.recs, r.path = mkFolderPath dirname basename) →
      (pathDirname (mkFolderPath dirname basename) = ""
        ∨ hasFolder db (pathDirname (mkFolderPath dirname basename)) = true) →
      createFolder db dirname basename =
        ⟨.error (.conflict .showObjectDuplicatedAlert (mkFolderPath dirname basename)), db, []⟩)
    ∧ ((∃ r ∈ db.recs, r.path = mkFilePath dn2 (basenameOfLocal localPath)) →
      (pathDirname (mkFilePath dn2 (basenameOfLocal localPath)) = ""
        ∨ hasFolder db (pathDirname (mkFilePath dn2 (basenameOfLocal localPath))) = true) →
      createFile db localPath dn2 uploadR headR updateR =
        ⟨.error (.conflict .showObjectDuplicatedAlert (mkFilePath dn2 (basenameOfLocal localPath))),
         db, []⟩)
    ∧ ((∀ r ∈ db.recs, r.path ≠ mkFolderPath dirname basename) →
      (pathDirname (mkFolderPath dirname basename) = ""
        ∨ hasFolder db (pathDirname (mkFolderPath dirname basename)) = true) →
      (createFolder db dirname basename).result.isOk = true
        ∧ createFolder (createFolder db dirname basename).db dirname basename =
            ⟨.error (.conflict .showObjectDuplicatedAlert (mkFolderPath dirname basename)),
             (createFolder db dirname basename).db, []⟩) := by
  refine ⟨fun hcol hpar => createFolder_conflict db dirname basename hcol hpar,
          fun hcol hpar => createFile_conflict db localPath dn2 uploadR headR updateR hcol hpar,
          fun hno hpar => ?_⟩
  have h1 := createFolder_ok db dirname basename hno hpar
  rw [h1]
  refine ⟨rfl, ?_⟩
  apply createFolder_conflict
  · exact ⟨mkRec db.nextId FOLDER_TYPE (mkFolderPath dirname basename), by simp, rfl⟩
  · rcases hpar with h | h
    · exact Or.inl h
    · refine Or.inr ?_
      rw [hasFolder] at h ⊢
      simp only [List.any_append, h, Bool.true_or]

theorem createFile_fail_eval (db : Store) (localPath dirname : String)
    (uploadR : Except Err Unit) (headR : Except Err (Nat × Nat)) (updateR : Except Err Unit)
    (e : Err)
    (hany : (db.recs.any fun x => x.path = mkFilePath dirname (basenameOfLocal localPath)) = false)
    (hpar : pathDirname (mkFilePath dirname (basenameOfLocal localPath)) = ""
      ∨ hasFolder db (pathDirname (mkFilePath dirname (basenameOfLocal localPath))) = true)
    (hfail : uploadR = .error e
      ∨ (uploadR = .ok () ∧ headR = .error e)
      ∨ (uploadR = .ok () ∧ (∃ hd, headR = .ok hd) ∧ updateR = .error e)) :
    (createFile db localPath dirname uploadR headR updateR).result = .error e
    ∧ (createFile db localPath dirname uploadR headR updateR).db
        = destroyId
            ⟨db.recs ++ [mkRec db.nextId FILE_TYPE (mkFilePath dirname (basenameOfLocal localPath))],
             db.nextId + 1⟩
            (mkRec db.nextId FILE_TYPE (mkFilePath dirname (basenameOfLocal localPath))).id := by
  rcases hfail with hf | ⟨hu, hf⟩ | ⟨hu, ⟨hd, hh⟩, hf⟩
  · subst hf
    rcases hpar with h | h <;> simp [createFile, h, insertRec, hany]
  · subst hu
    subst hf
    rcases hpar with h | h <;> simp [createFile, h, insertRec, hany]
  · subst hu
    subst hh
    subst hf
    rcases hpar with h | h <;> simp [createFile, h, insertRec, hany]

theorem C3_upload_failure_compensation (db : Store) (localPath dirname : String)
    (uploadR : Except Err Unit) (headR : Except Err (Nat × Nat)) (updateR : Except Err Unit)
    (e : Err)
    (hno : ∀ r ∈ db.recs, r.path ≠ mkFilePath dirname (basenameOfLocal localPath))
    (hpar : pathDirname (mkFilePath dirname (basenameOfLocal localPath)) = ""
      ∨ hasFolder db (pathDirname (mkFilePath dirname (basenameOfLocal localPath))) = true)
    (hfail : uploadR = .error e
      ∨ (uploadR = .ok () ∧ headR = .error e)
      ∨ (uploadR = .ok () ∧ (∃ hd, headR = .ok hd) ∧ updateR = .error e)) :
    (createFile db localPath dirname uploadR headR updateR).result = .error e
    ∧ ∀ r ∈ (createFile db localPath dirname uploadR headR updateR).db.recs,
        r.path ≠ mkFilePath dirname (basenameOfLocal localPath) := by
  have hany : (db.recs.any fun x => x.path = mkFilePath dirname (basenameOfLocal localPath)) = false := by
    rw [List.any_eq_false]
    intro r hr
    simp [hno r hr]
  obtain ⟨h1, h2⟩ := createFile_fail_eval db localPath dirname uploadR headR updateR e hany hpar hfail
  refine ⟨h1, ?_⟩
  rw [h2]
  intro r hr
  rw [destroyId] at hr
  simp only [List.mem_filter, List.mem_append, List.mem_singleton] at hr
  obtain ⟨hmem, hid⟩ := hr
  rcases hmem with hmem | hmem
  · exact hno r hmem
  · subst hmem
    simp [mkRec] at hid

theorem C4_missing_parent_not_found (db : Store) (dirname basename localPath dn2 : String)
    (uploadR : Except Err Unit) (headR : Except Err (Nat × Nat)) (updateR : Except Err Unit) :
    (pathDirname (mkFolderPath dirname basename) ≠ "" →
      hasFolder db (pathDirname (mkFolderPath dirname basename)) = false →
      createFolder db dirname basename =
        ⟨.error (.notFound ("not found parent \"" ++ pathDirname (mkFolderPath dirname basename) ++ "\"")),
         db, []⟩)
    ∧ (pathDirname (mkFilePath dn2 (basenameOfLocal localPath)) ≠ "" →
      hasFolder db (pathDirname (mkFilePath dn2 (basenameOfLocal localPath))) = false →
      createFile db localPath dn2 uploadR headR updateR =
        ⟨.error (.notFound ("not found parent \"" ++ pathDirname (mkFilePath dn2 (basenameOfLocal localPath)) ++ "\"")),
         db, []⟩) :=
  ⟨fun h1 h2 => by simp [createFolder, h1, h2],
   fun h1 h2 => by simp [createFile, h1, h2]⟩

theorem C7_counterexample :
    getObjects exDb7 "" (some "b") none 50 = .ok ⟨false, [mkRec 1 FILE_TYPE "ab.txt"]⟩
      ∧ strStarts (mkRec 1 FILE_TYPE "ab.txt").path "b" = false :=
  ⟨by decide, by decide⟩

theorem C7_keyword_scope_amended (db : Store) (dirname : String)
    (keyword : Option String) (r : Rec) :
    (kwTerms keyword = ([], []) →
      (r ∈ eligibleRecs db dirname keyword none ↔ r ∈ db.recs ∧ r.dirname = dirname))
    ∧ (∀ plus minus, kwTerms keyword = (plus, minus) → plus ++ minus ≠ [] →
      (r ∈ eligibleRecs db dirname keyword none ↔
        r ∈ db.recs ∧ strStarts r.dirname dirname = true
          ∧ (∀ t ∈ plus, strHasSub r.path t = true)
          ∧ (∀ t ∈ minus, strHasSub r.path t = false))) := by
  constructor
  · intro h
    simp [eligibleRecs, List.mem_filter, queryFilterPred, h, dirCond, kwCond]
  · intro plus minus h hne
    have hact : (plus.isEmpty && minus.isEmpty) = false := by
      cases plus with
      | nil =>
        cases minus with
        | nil => simp at hne
        | cons hd tl => simp
      | cons hd tl => simp
    simp [eligibleRecs, List.mem_filter, queryFilterPred, h, hact, dirCond, kwCond,
      likeMatches_contains, likeMatches_starts, List.all_eq_true]

theorem C1_cursor_predicate_code_bug :
    specResumeAfter (mkRec 1 FOLDER_TYPE "b/") (mkRec 2 FILE_TYPE "a.txt") = true
      ∧ afterCond (mkRec 1 FOLDER_TYPE "b/") (mkRec 2 FILE_TYPE "a.txt") = false
      ∧ getObjects exDb1 "" none none 1 = .ok ⟨true, [mkRec 1 FOLDER_TYPE "b/"]⟩
      ∧ getObjects exDb1 "" none (some 1) 50 = .ok ⟨false, []⟩ :=
  ⟨by decide, by decide, by decide, by decide⟩

theorem mem_objects (db : Store) (ids : List Nat) (x : Rec) :
    x ∈ (db.recs.filter fun r => ids.contains r.id) ↔ x ∈ db.recs ∧ x.id ∈ ids := by
  simp [List.mem_filter, List.elem_iff]

theorem deleteValidation_none (db : Store) (ids : List Nat)
    (hall : ∀ i ∈ ids, ∃ r ∈ db.recs, r.id = i) :
    (if (db.recs.filter fun r => ids.contains r.id).length == ids.length
      then none
      else firstMissingOf (db.recs.filter fun r => ids.contains r.id) ids) = none := by
  by_cases hlen : ((db.recs.filter fun r => ids.contains r.id).length == ids.length) = true
  · rw [if_pos hlen]
  · rw [if_neg hlen]
    exact firstMissingOf_eq_none db ids hall

theorem mem_delFiles (db : Store) (ids : List Nat) (x : Rec) :
    x ∈ delFiles db ids ↔
      ((x ∈ db.recs ∧ x.id ∈ ids ∧ x.type = FILE_TYPE)
        ∨ ∃ o ∈ db.recs, o.id ∈ ids ∧ o.type ≠ FILE_TYPE
            ∧ x ∈ db.recs ∧ x.type = FILE_TYPE ∧ strStarts x.path o.path = true) := by
  rw [delFiles, mem_concatAll]
  constructor
  · rintro ⟨a, ha, hx⟩
    rw [mem_objects] at ha
    by_cases ht : (a.type == FILE_TYPE) = true
    · rw [filesOf, if_pos ht] at hx
      rw [List.mem_singleton] at hx
      subst hx
      exact Or.inl ⟨ha.1, ha.2, by simpa using ht⟩
    · rw [filesOf, if_neg ht] at hx
      rw [List.mem_filter] at hx
      obtain ⟨hxdb, hcond⟩ := hx
      simp only [Bool.and_eq_true, beq_iff_eq] at hcond
      refine Or.inr ⟨a, ha.1, ha.2, by simpa using ht, hxdb, hcond.1, ?_⟩
      rw [← descMatch_eq]
      exact hcond.2
  · rintro (⟨hxdb, hxid, hxty⟩ | ⟨o, hodb, hoid, hot, hxdb, hxty, hpre⟩)
    · refine ⟨x, (mem_objects db ids x).mpr ⟨hxdb, hxid⟩, ?_⟩
      rw [filesOf, if_pos (by simp [hxty])]
      exact List.mem_singleton.mpr rfl
    · refine ⟨o, (mem_objects db ids o).mpr ⟨hodb, hoid⟩, ?_⟩
      rw [filesOf, if_neg (by simp [hot])]
      rw [List.mem_filter]
      exact ⟨hxdb, by simp [hxty, descMatch_eq, hpre]⟩

theorem mem_delFolders (db : Store) (ids : List Nat) (x : Rec) :
    x ∈ delFolders db ids ↔
      ∃ o ∈ db.recs, o.id ∈ ids ∧ o.type ≠ FILE_TYPE
        ∧ x ∈ db.recs ∧ x.type = FOLDER_TYPE ∧ strStarts x.path o.path = true := by
  rw [delFolders, mem_concatAll]
  constructor
  · rintro ⟨a, ha, hx⟩
    rw [mem_objects] at ha
    by_cases ht : (a.type == FILE_TYPE) = true
    · rw [foldersOf, if_pos ht] at hx
      simp at hx
    · rw [foldersOf, if_neg ht] at hx
      rw [List.mem_filter] at hx
      obtain ⟨hxdb, hcond⟩ := hx
      simp only [Bool.and_eq_true, beq_iff_eq] at hcond
      refine ⟨a, ha.1, ha.2, by simpa using ht, hxdb, hcond.1, ?_⟩
      rw [← descMatch_eq]
      exact hcond.2
  · rintro ⟨o, hodb, hoid, hot, hxdb, hxty, hpre⟩
    refine ⟨o, (mem_objects db ids o).mpr ⟨hodb, hoid⟩, ?_⟩
    rw [foldersOf, if_neg (by simp [hot])]
    rw [List.mem_filter]
    exact ⟨hxdb, by simp [hxty, descMatch_eq, hpre]⟩

theorem C5_recursive_delete (db : Store) (ids : List Nat)
    (hall : ∀ i ∈ ids, ∃ r ∈ db.recs, r.id = i) :
    (deleteObjects db ids).result = .ok ()
    ∧ (deleteObjects db ids).db.recs
        = db.recs.filter (fun r =>
            !(((delFiles db ids).map Rec.id).contains r.id)
              && !(((delFolders db ids).map Rec.id).contains r.id))
    ∧ (∀ x, x ∈ delFiles db ids ↔
        ((x ∈ db.recs ∧ x.id ∈ ids ∧ x.type = FILE_TYPE)
          ∨ ∃ o ∈ db.recs, o.id ∈ ids ∧ o.type ≠ FILE_TYPE
              ∧ x ∈ db.recs ∧ x.type = FILE_TYPE ∧ strStarts x.path o.path = true))
    ∧ (∀ x, x ∈ delFolders db ids ↔
        ∃ o ∈ db.recs, o.id ∈ ids ∧ o.type ≠ FILE_TYPE
          ∧ x ∈ db.recs ∧ x.type = FOLDER_TYPE ∧ strStarts x.path o.path = true)
    ∧ (deleteObjects db ids).ops
        = (if (delFiles db ids).isEmpty then []
           else [.deleteObjects ((delFiles db ids).map Rec.path)])
          ++ (if (delFolders db ids).isEmpty then []
              else [.deleteObjects (sortByDepthDesc ((delFolders db ids).map Rec.path))])
    ∧ List.Perm (sortByDepthDesc ((delFolders db ids).map Rec.path))
        ((delFolders db ids).map Rec.path)
    ∧ (sortByDepthDesc ((delFolders db ids).map Rec.path)).Pairwise
        (fun a b => slashCount b ≤ slashCount a) := by
  have hrun := deleteObjects_run db ids (deleteValidation_none db ids hall)
  rw [hrun]
  exact ⟨rfl, rfl, mem_delFiles db ids, mem_delFolders db ids, rfl,
    sortByDepthDesc_perm _, sortByDepthDesc_sorted _⟩

theorem missing_length_lt (db : Store) (ids : List Nat)
    (hnd : (db.recs.map Rec.id).Nodup)
    (m : Nat) (hm : m ∈ ids) (hmiss : ∀ r ∈ db.recs, r.id ≠ m) :
    (db.recs.filter fun r => ids.contains r.id).length < ids.length := by
  have hsub : ((db.recs.filter fun r => ids.contains r.id).map Rec.id).Sublist (db.recs.map Rec.id) :=
    List.Sublist.map Rec.id (List.filter_sublist _)
  have h1 : ((db.recs.filter fun r => ids.contains r.id).map Rec.id).Nodup :=
    List.Nodup.sublist hsub hnd
  have h4 : ((db.recs.filter fun r => ids.contains r.id).map Rec.id).toFinset
      ⊆ ids.toFinset.erase m := by
    intro x hx
    rw [List.mem_toFinset, List.mem_map] at hx
    obtain ⟨r, hr, hxe⟩ := hx
    rw [mem_objects] at hr
    subst hxe
    rw [Finset.mem_erase, List.mem_toFinset]
    exact ⟨hmiss r hr.1, hr.2⟩
  calc (db.recs.filter fun r => ids.contains r.id).length
      = ((db.recs.filter fun r => ids.contains r.id).map Rec.id).length := by
        rw [List.length_map]
    _ = ((db.recs.filter fun r => ids.contains r.id).map Rec.id).toFinset.card :=
        (List.toFinset_card_of_nodup h1).symm
    _ ≤ (ids.toFinset.erase m).card := Finset.card_le_card h4
    _ < ids.toFinset.card := Finset.card_erase_lt_of_mem (List.mem_toFinset.mpr hm)
    _ ≤ ids.length := ids.toFinset_card_le

theorem C6_validation_before_mutation (db : Store) (localPath dirname : String)
    (ids : List Nat)
    (hnd : (db.recs.map Rec.id).Nodup)
    (hmiss : ∃ i ∈ ids, ∀ r ∈ db.recs, r.id ≠ i) :
    ∃ m ∈ ids, (∀ r ∈ db.recs, r.id ≠ m)
      ∧ deleteObjects db ids
          = ⟨.error (.notFound ("not found \"" ++ toString m ++ "\"")), db, []⟩
      ∧ downloadObjects db localPath dirname ids
          = .error (.notFound ("not found object \"" ++ toString m ++ "\"")) := by
  obtain ⟨i0, hi0, hi0m⟩ := hmiss
  have hsome : (firstMissingOf (db.recs.filter fun r => ids.contains r.id) ids).isSome := by
    apply List.find?_isSome.mpr
    refine ⟨i0, hi0, ?_⟩
    have hfalse : ((db.recs.filter fun r => ids.contains r.id).any fun r => r.id == i0) = false := by
      rw [List.any_eq_false]
      intro r hr
      rw [mem_objects] at hr
      simp [hi0m r hr.1]
    rw [hfalse]
    rfl
  obtain ⟨m, hfind⟩ := Option.isSome_iff_exists.mp hsome
  have hm_mem : m ∈ ids := List.mem_of_find?_eq_some hfind
  have hpred := List.find?_some hfind
  have hm_miss : ∀ r ∈ db.recs, r.id ≠ m := by
    intro r hr he
    have hro : r ∈ (db.recs.filter fun r => ids.contains r.id) :=
      (mem_objects db ids r).mpr ⟨hr, he ▸ hm_mem⟩
    have hany : ((db.recs.filter fun r => ids.contains r.id).any fun x => x.id == m) = true :=
      List.any_eq_true.mpr ⟨r, hro, by simp [he]⟩
    rw [hany] at hpred
    simp at hpred
  have hlen := missing_length_lt db ids hnd m hm_mem hm_miss
  have hbeq : ((db.recs.filter fun r => ids.contains r.id).length == ids.length) = false := by
    rw [beq_eq_false_iff_ne]
    exact Nat.ne_of_lt hlen
  have hcneg : ¬(((db.recs.filter fun r => ids.contains r.id).length == ids.length) = true) := by
    rw [hbeq]
    simp
  have hval : (if (db.recs.filter fun r => ids.contains r.id).length == ids.length
      then none
      else firstMissingOf (db.recs.filter fun r => ids.contains r.id) ids) = some m := by
    rw [if_neg hcneg, hfind]
  refine ⟨m, hm_mem, hm_miss, ?_, ?_⟩
  · simp only [deleteObjects, hval]
  · simp only [downloadObjects]
    rw [if_neg hcneg, hfind]

theorem C9_download_dest_mapping (db : Store) (localPath dirname : String)
    (ids : List Nat) (ws : List FileWrite)
    (h : downloadObjects db localPath dirname ids = .ok ws) :
    ∀ w ∈ ws, strStarts w.src dirname = true →
      w.dest = specDest localPath dirname w.src := by
  simp only [downloadObjects] at h
  by_cases hc : (((db.recs.filter fun r => ids.contains r.id).length == ids.length) = true)
  · rw [if_pos hc] at h
    injection h with h
    subst h
    intro w hw hpre
    rw [List.mem_map] at hw
    obtain ⟨f, hf, hwe⟩ := hw
    subst hwe
    show destPath localPath dirname f.path = specDest localPath dirname f.path
    rw [destPath, specDest, jsReplaceFirst]
    have hrep : replaceFirstL dirname.data f.path.data = f.path.data.drop dirname.length :=
      replaceFirstL_of_starts hpre
    rw [hrep]
  · rw [if_neg hc] at h
    rcases hfm : firstMissingOf (db.recs.filter fun r => ids.contains r.id) ids with _ | m
    · rw [hfm] at h
      simp at h
    · rw [hfm] at h
      simp at h

theorem C10_duplicate_ids_divergence (db : Store) (localPath dirname : String)
    (ids : List Nat)
    (hall : ∀ i ∈ ids, ∃ r ∈ db.recs, r.id = i) :
    ((db.recs.filter fun r => ids.contains r.id).length ≠ ids.length →
      downloadObjects db localPath dirname ids
        = .error (.notFound ("not found \"" ++ toString ids ++ "\"")))
    ∧ (deleteObjects db ids).result = .ok ()
    ∧ (deleteObjects db ids).db.recs
        = db.recs.filter (fun r =>
            !(((delFiles db ids).map Rec.id).contains r.id)
              && !(((delFolders db ids).map Rec.id).contains r.id)) := by
  have hrun := deleteObjects_run db ids (deleteValidation_none db ids hall)
  refine ⟨?_, by rw [hrun], by rw [hrun]⟩
  intro hne
  have hbeq : ((db.recs.filter fun r => ids.contains r.id).length == ids.length) = false := by
    rw [beq_eq_false_iff_ne]
    exact hne
  have hcneg : ¬(((db.recs.filter fun r => ids.contains r.id).length == ids.length) = true) := by
    rw [hbeq]
    simp
  simp only [downloadObjects]
  rw [if_neg hcneg, firstMissingOf_eq_none db ids hall]

theorem C2_witness :
    createFolder exDb2 "" "x"
        = ⟨.error (.conflict .showObjectDuplicatedAlert (mkFolderPath "" "x")), exDb2, []⟩
      ∧ createFile exDb2 "y.txt" "" (.ok ()) (.ok (3, 4)) (.ok ())
        = ⟨.error (.conflict .showObjectDuplicatedAlert (mkFilePath "" (basenameOfLocal "y.txt"))),
           exDb2, []⟩ :=
  ⟨(C2_duplicate_path_conflict exDb2 "" "x" "y.txt" "" (.ok ()) (.ok (3, 4)) (.ok ())).1
      (by decide) (by decide),
   (C2_duplicate_path_conflict exDb2 "" "x" "y.txt" "" (.ok ()) (.ok (3, 4)) (.ok ())).2.1
      (by decide) (by decide)⟩

theorem C3_witness :
    (createFile exDb2 "new.bin" "" (.error (.remote 7)) (.ok (1, 2)) (.ok ())).result
        = .error (.remote 7)
    ∧ ∀ r ∈ (createFile exDb2 "new.bin" "" (.error (.remote 7)) (.ok (1, 2)) (.ok ())).db.recs,
        r.path ≠ mkFilePath "" (basenameOfLocal "new.bin") :=
  C3_upload_failure_compensation exDb2 "new.bin" "" (.error (.remote 7)) (.ok (1, 2)) (.ok ())
    (.remote 7) (by decide) (by decide) (Or.inl rfl)

theorem C4_witness :
    createFolder exDb2 "zzz" "w"
        = ⟨.error (.notFound ("not found parent \"" ++ pathDirname (mkFolderPath "zzz" "w") ++ "\"")),
           exDb2, []⟩
      ∧ createFile exDb2 "f.txt" "qqq" (.ok ()) (.ok (1, 2)) (.ok ())
        = ⟨.error (.notFound
             ("not found parent \"" ++ pathDirname (mkFilePath "qqq" (basenameOfLocal "f.txt")) ++ "\"")),
           exDb2, []⟩ :=
  ⟨(C4_missing_parent_not_found exDb2 "zzz" "w" "f.txt" "qqq" (.ok ()) (.ok (1, 2)) (.ok ())).1
      (by decide) (by decide),
   (C4_missing_parent_not_found exDb2 "zzz" "w" "f.txt" "qqq" (.ok ()) (.ok (1, 2)) (.ok ())).2
      (by decide) (by decide)⟩

theorem C5_witness :
    (deleteObjects exDb5 [1]).result = .ok () :=
  (C5_recursive_delete exDb5 [1] (by decide)).1

theorem C6_witness :
    ∃ m ∈ [9], (∀ r ∈ exDb10.recs, r.id ≠ m)
      ∧ deleteObjects exDb10 [9]
          = ⟨.error (.notFound ("not found \"" ++ toString m ++ "\"")), exDb10, []⟩
      ∧ downloadObjects exDb10 "o" "" [9]
          = .error (.notFound ("not found object \"" ++ toString m ++ "\"")) :=
  C6_validation_before_mutation exDb10 "o" "" [9] (by decide) (by decide)

theorem C7_witness :
    mkRec 1 FILE_TYPE "ab.txt" ∈ eligibleRecs exDb7 "" (some "b") none ↔
      mkRec 1 FILE_TYPE "ab.txt" ∈ exDb7.recs
        ∧ strStarts (mkRec 1 FILE_TYPE "ab.txt").dirname "" = true
        ∧ (∀ t ∈ ["b"], strHasSub (mkRec 1 FILE_TYPE "ab.txt").path t = true)
        ∧ (∀ t ∈ ([] : List String), strHasSub (mkRec 1 FILE_TYPE "ab.txt").path t = false) :=
  (C7_keyword_scope_amended exDb7 "" (some "b") (mkRec 1 FILE_TYPE "ab.txt")).2
    ["b"] [] (by decide) (by decide)

theorem C8_witness :
    ∃ c : Option Rec,
      (fetchRows exDb1 "" none c 1).length ≤ 1 + 1
      ∧ (Page.mk true [mkRec 1 FOLDER_TYPE "b/"]).items = (fetchRows exDb1 "" none c 1).take 1
      ∧ ((Page.mk true [mkRec 1 FOLDER_TYPE "b/"]).hasNextPage = true
          ↔ 1 < (fetchRows exDb1 "" none c 1).length)
      ∧ (Page.mk true [mkRec 1 FOLDER_TYPE "b/"]).items = (orderedMatches exDb1 "" none c).take 1
      ∧ ((Page.mk true [mkRec 1 FOLDER_TYPE "b/"]).hasNextPage = true
          ↔ 1 < (orderedMatches exDb1 "" none c).length) :=
  C8_limit_plus_one_pagination exDb1 "" none none 1 ⟨true, [mkRec 1 FOLDER_TYPE "b/"]⟩ (by decide)

theorem C9_witness :
    (FileWrite.mk "docs/a.txt" "out/a.txt").dest
      = specDest "out" "docs" (FileWrite.mk "docs/a.txt" "out/a.txt").src :=
  C9_download_dest_mapping exDb9 "out" "docs" [1] [⟨"docs/a.txt", "out/a.txt"⟩] (by decide)
    ⟨"docs/a.txt", "out/a.txt"⟩ (by decide) (by decide)

theorem C10_witness :
    downloadObjects exDb10 "o" "" [1, 1]
        = .error (.notFound ("not found \"" ++ toString [1, 1] ++ "\""))
    ∧ (deleteObjects exDb10 [1, 1]).result = .ok () :=
  ⟨(C10_duplicate_ids_divergence exDb10 "o" "" [1, 1] (by decide)).1 (by decide),
   (C10_duplicate_ids_divergence exDb10 "o" "" [1, 1] (by decide)).2.1⟩

end S3FM









